import Mathlib

/-!
Verification of the paginated graph-query aggregation protocol of `cligh`
(`github.py`), against its natural-language specification.

The embedding models the decoded JSON documents the Python code manipulates,
the dotted-path navigation (`get`), the pagination-info lookup (`next_page`),
the in-place merge (`merge`, Python `a += b`), and the driver loop
`v4request_all_pages`.  The HTTP transport is modelled as a stub: a list of
canned `Response` values consumed in request order, exactly the "stub
transport returning canned pages" of the specification's testable
properties.  Machine-level effects (the actual socket I/O) are out of the
model; everything else follows the Python source line by line.
-/

set_option autoImplicit false

namespace Cligh

/-- Decoded JSON values, as produced by `response.json()` in the Python code.
JSON numbers are modelled as integers (no claim involves fractional
numbers). -/
inductive Json where
  | null : Json
  | bool : Bool → Json
  | num : Int → Json
  | str : String → Json
  | arr : List Json → Json
  | obj : List (String × Json) → Json
deriving Repr

/-- Python exceptions that the navigation and merge code can raise:
`KeyError` (missing mapping key) and `TypeError` (indexing a non-mapping
with a string key, or an unsupported `+=`). -/
inductive PyErr where
  | keyError (k : String)
  | typeError
deriving Repr, DecidableEq

/-- Python truthiness of a decoded JSON value (`if v:` / `if not v:`). -/
def Json.truthy : Json → Bool
  | .null => false
  | .bool b => b
  | .num n => n != 0
  | .str s => s != ""
  | .arr l => !l.isEmpty
  | .obj l => !l.isEmpty

/-- Helper for `pySplit`: Python `str.split(sep)` on character lists, for a
non-empty separator, scanning left to right and consuming the separator
greedily.  `fuel` bounds the recursion depth; any `fuel > cs.length` makes
the function exact (the recursion consumes at least one character per
step).  Structural recursion on `fuel` keeps concrete evaluation
kernel-reducible. -/
def pySplitAux (sep : List Char) : Nat → List Char → List Char → List (List Char)
  | 0, _, acc => [acc.reverse]
  | fuel + 1, cs, acc =>
      if sep.isPrefixOf cs && !sep.isEmpty then
        acc.reverse :: pySplitAux sep fuel (cs.drop sep.length) []
      else
        match cs with
        | [] => [acc.reverse]
        | c :: cs2 => pySplitAux sep fuel cs2 (c :: acc)

/-- Python `s.split(sep)` for a non-empty separator string. -/
def pySplit (s sep : String) : List String :=
  (pySplitAux sep.data (s.data.length + 1) s.data []).map String.mk

/-- First-match association lookup, the semantics of Python `dict` access
on the decoded object (decoded JSON objects have unique keys). -/
def lookupKey (k : String) : List (String × Json) → Option Json
  | [] => none
  | kv :: kvs => if kv.1 = k then some kv.2 else lookupKey k kvs

/-- Python `v[k]` for a string key `k`: succeeds on a mapping containing
`k`, raises `KeyError` on a mapping missing `k`, and raises `TypeError`
on any non-mapping (list, string, number, boolean, `None`). -/
def Json.index : Json → String → Except PyErr Json
  | .obj kvs, k =>
      match lookupKey k kvs with
      | some v => .ok v
      | none => .error (.keyError k)
  | _, _ => .error .typeError

/-- The key-walking loop shared by `get` and `next_page` in the source:
`for k in keys: v = v[k]`. -/
def getKeys : Json → List String → Except PyErr Json
  | j, [] => .ok j
  | j, k :: ks =>
      match j.index k with
      | .error e => .error e
      | .ok v => getKeys v ks

/-- The helper `get(json, path)` from `v4request_all_pages`: split the dotted path on
"." and walk the document one key at a time. -/
def get (json : Json) (path : String) : Except PyErr Json :=
  getKeys json (pySplit path ".")

/-- The key list used by `next_page`: the dotted path split on ".", with the
last segment replaced by the literal key `pageInfo`
(`del keys[-1]; keys.append('pageInfo')`). -/
def pageInfoKeys (path_to_paginated_array : String) : List String :=
  (pySplit path_to_paginated_array ".").dropLast ++ ["pageInfo"]

/-- The helper `next_page(json, path_to_paginated_array)` from the source: resolve the
sibling `pageInfo` node; if its `hasNextPage` entry is truthy return the
`endCursor` entry, else return `None`.  Missing keys raise (propagated in
the `Except`). -/
def next_page (json : Json) (path_to_paginated_array : String) :
    Except PyErr (Option Json) :=
  match getKeys json (pageInfoKeys path_to_paginated_array) with
  | .error e => .error e
  | .ok v =>
      match v.index "hasNextPage" with
      | .error e => .error e
      | .ok h =>
          if h.truthy then
            match v.index "endCursor" with
            | .error e => .error e
            | .ok c => .ok (some c)
          else
            .ok none

/-- Python `a += b` on decoded JSON values.  Returns the resulting value of
the left operand together with a flag telling whether the operation mutated
the object in place (`true`, lists) or merely rebound the local name
(`false`, strings and numbers); unsupported combinations raise `TypeError`.
Iterating a string yields its one-character strings; iterating a mapping
yields its keys. -/
def pyIAdd : Json → Json → Except PyErr (Json × Bool)
  | .arr a, .arr b => .ok (.arr (a ++ b), true)
  | .arr a, .str s =>
      .ok (.arr (a ++ s.toList.map (fun c => .str (String.singleton c))), true)
  | .arr a, .obj kvs => .ok (.arr (a ++ kvs.map (fun kv => .str kv.1)), true)
  | .arr _, _ => .error .typeError
  | .str a, .str b => .ok (.str (a ++ b), false)
  | .str _, _ => .error .typeError
  | .num a, .num b => .ok (.num (a + b), false)
  | .num a, .bool b => .ok (.num (a + (if b then 1 else 0)), false)
  | .bool a, .num b => .ok (.num ((if a then 1 else 0) + b), false)
  | .bool a, .bool b => .ok (.num ((if a then 1 else 0) + (if b then 1 else 0)), false)
  | _, _ => .error .typeError

mutual
/-- Functional write-back of an in-place mutation: replace the node reached
by `keys` with `newV`.  On a non-mapping, or past the end of the keys, the
document is returned unchanged (those cases are unreachable when the
corresponding `getKeys` succeeded). -/
def setKeys : Json → List String → Json → Json
  | _, [], newV => newV
  | .obj kvs, k :: ks, newV => .obj (setKeysObj kvs k ks newV)
  | j, _ :: _, _ => j

/-- Pointwise update of an association list at key `k`. -/
def setKeysObj : List (String × Json) → String → List String → Json →
    List (String × Json)
  | [], _, _, _ => []
  | kv :: kvs, k, ks, newV =>
      (if kv.1 = k then (kv.1, setKeys kv.2 ks newV) else kv) ::
        setKeysObj kvs k ks newV
end

/-- The helper `merge(response_a, response_b, path_to_paginated_array)` from the
source: resolve the target node in both pages and perform `a += b`.  When
the `+=` mutates in place (list target) the mutation is written back into
`response_a`; when it rebinds the local name (string or number target) the
merge silently has no effect on `response_a`. -/
def merge (response_a response_b : Json) (path_to_paginated_array : String) :
    Except PyErr Json :=
  match get response_a path_to_paginated_array with
  | .error e => .error e
  | .ok a =>
      match get response_b path_to_paginated_array with
      | .error e => .error e
      | .ok b =>
          match pyIAdd a b with
          | .error e => .error e
          | .ok (newA, mutated) =>
              .ok (if mutated
                   then setKeys response_a (pySplit path_to_paginated_array ".") newA
                   else response_a)

mutual
/-- Python `repr` of a decoded JSON value (used by `str.format` on
non-string values). -/
def pyRepr : Json → String
  | .null => "None"
  | .bool true => "True"
  | .bool false => "False"
  | .num n => toString n
  | .str s => "\x27" ++ s ++ "\x27"
  | .arr l => "[" ++ String.intercalate ", " (pyReprList l) ++ "]"
  | .obj kvs => "\x7b" ++ String.intercalate ", " (pyReprObj kvs) ++ "\x7d"

/-- Python `repr` of each element of a JSON array. -/
def pyReprList : List Json → List String
  | [] => []
  | x :: xs => pyRepr x :: pyReprList xs

/-- Python `repr` of each entry of a JSON object. -/
def pyReprObj : List (String × Json) → List String
  | [] => []
  | kv :: kvs => ("\x27" ++ kv.1 ++ "\x27: " ++ pyRepr kv.2) :: pyReprObj kvs
end

/-- Python `str(v)` / `"{}".format(v)`: a string formats as itself, every
other value as its `repr`. -/
def pyStr : Json → String
  | .str s => s
  | j => pyRepr j

/-- One canned HTTP response of the stub transport: the HTTP status code,
the raw body text (`response.text`) and the decoded body
(`response.json()`). -/
structure Response where
  status_code : Nat
  text : String
  body : Json
deriving Repr

/-- Errors with which `v4request_all_pages` can abort: the explicitly
raised transport `Exception` (carrying its message), a propagated Python
`KeyError`/`TypeError`, the (unreachable) `IndexError` of `responses[0]` on
an empty collection, and the model-level marker for the stub transport
running out of canned responses while the loop wants one more page. -/
inductive AggError where
  | transport (msg : String)
  | py (e : PyErr)
  | indexError
  | stubExhausted
deriving Repr, DecidableEq

/-- Python `str(response)` for a `requests.Response` object. -/
def reprResponse (status : Nat) : String :=
  "<Response [" ++ toString status ++ "]>"

/-- The message of the `Exception` raised on a non-200 status:
`"Request failed with code {}.\nRequest:\n{}\nResponse:\n{}".format(
status_code, formatted_q, response)` — note the third argument is the
response object itself, not its body text. -/
def errMsg (status : Nat) (formatted_q : String) : String :=
  "Request failed with code " ++ toString status ++ ".\nRequest:\n" ++
    formatted_q ++ "\nResponse:\n" ++ reprResponse status

/-- The function `query(q)` from the source: the value of the `"query"` field of every
POSTed request body, wrapping the supplied query in braces together with a
`rateLimit` sub-query. -/
def query (q : String) : String :=
  " \x7b " ++ q ++ " rateLimit \x7b limit cost remaining resetAt \x7d \x7d "

/-- The fixed second substitution value:
`" pageInfo { endCursor hasNextPage } "`. -/
def pageInfoFragment : String := " pageInfo \x7b endCursor hasNextPage \x7d "

/-- The `after: "<cursor>" ` clause, formatting the cursor value with
Python `str`. -/
def afterClause (cursor : Json) : String :=
  "after: \x22" ++ pyStr cursor ++ "\x22 "

/-- Truthiness of the Python `cursor` variable, which is either `None`
(returned by `next_page`) or a JSON value. -/
def cursorTruthy : Option Json → Bool
  | none => false
  | some j => j.truthy

/-- The first substitution value of each iteration:
`("after: \"{}\" ".format(cursor) if cursor else "") + "first: 50"`. -/
def paginationArgs : Option Json → String
  | none => "first: 50"
  | some c => if c.truthy then afterClause c ++ "first: 50" else "first: 50"

/-- Python `%`-formatting of the query template with exactly its two `%s`
slots (`q % (a, b)`); any other slot count raises `TypeError`.  Templates
are modelled up to their `%s` markers (no other conversion specifier
occurs in the repository's templates). -/
def format2 (template a b : String) : Except PyErr String :=
  match pySplit template "%s" with
  | [p0, p1, p2] => .ok (p0 ++ a ++ p1 ++ b ++ p2)
  | _ => .error .typeError

/-- A template with exactly two `%s` substitution markers, as the external
interface contract requires. -/
def hasTwoSlots (template : String) : Bool :=
  (pySplit template "%s").length == 3

/-- Outcome of the request loop of `v4request_all_pages`: the decoded pages
collected (`responses`), and instrumentation of the transport interaction —
the number of POST requests issued, the formatted query of each request,
the wrapped `"query"` body field of each request, and the value of the
`cursor` variable at each request. -/
structure FetchOut where
  collected : Except AggError (List Json)
  calls : Nat
  sentQs : List String
  sentBodies : List String
  usedCursors : List (Option Json)
deriving Repr

/-- The `while True:` loop of `v4request_all_pages`, driven by the stub
transport: each iteration formats the template, consumes the next canned
response, raises on a non-200 status, records the decoded body, and
continues exactly when `next_page` returns a truthy cursor. -/
def fetchPages (q path_to_paginated_array : String) :
    Option Json → List Response → FetchOut
  | _, [] =>
      { collected := .error .stubExhausted, calls := 0,
        sentQs := [], sentBodies := [], usedCursors := [] }
  | cursor, resp :: rest =>
      match format2 q (paginationArgs cursor) pageInfoFragment with
      | .error e =>
          { collected := .error (.py e), calls := 0,
            sentQs := [], sentBodies := [], usedCursors := [] }
      | .ok fq =>
          if resp.status_code ≠ 200 then
            { collected := .error (.transport (errMsg resp.status_code fq)),
              calls := 1, sentQs := [fq], sentBodies := [query fq],
              usedCursors := [cursor] }
          else
            match next_page resp.body path_to_paginated_array with
            | .error e =>
                { collected := .error (.py e), calls := 1, sentQs := [fq],
                  sentBodies := [query fq], usedCursors := [cursor] }
            | .ok c =>
                if cursorTruthy c then
                  let out := fetchPages q path_to_paginated_array c rest
                  { collected := out.collected.map (resp.body :: ·),
                    calls := out.calls + 1,
                    sentQs := fq :: out.sentQs,
                    sentBodies := query fq :: out.sentBodies,
                    usedCursors := cursor :: out.usedCursors }
                else
                  { collected := .ok [resp.body], calls := 1, sentQs := [fq],
                    sentBodies := [query fq], usedCursors := [cursor] }

/-- The merge loop after the request loop:
`for r in responses: merge(final_response, r, path_to_paginated_array)`. -/
def mergeAll (path_to_paginated_array : String) :
    Json → List Json → Except PyErr Json
  | acc, [] => .ok acc
  | acc, r :: rs =>
      match merge acc r path_to_paginated_array with
      | .error e => .error e
      | .ok acc2 => mergeAll path_to_paginated_array acc2 rs

/-- Result of a whole `v4request_all_pages` call: the returned document or
the raised error, plus the transport instrumentation. -/
structure AggTrace where
  result : Except AggError Json
  calls : Nat
  sentQs : List String
  sentBodies : List String
  usedCursors : List (Option Json)
deriving Repr

/-- The function `v4request_all_pages(q, path_to_paginated_array)` from the source,
evaluated against the stub transport `pages`: prefix the path with
`"data."`, run the request loop starting from the empty-string cursor, then
merge every later page into the first page and return it. -/
def v4request_all_pages (pages : List Response) (q path_to_paginated_array : String) :
    AggTrace :=
  let pa := "data." ++ path_to_paginated_array
  let out := fetchPages q pa (some (.str "")) pages
  match out.collected with
  | .error e =>
      { result := .error e, calls := out.calls, sentQs := out.sentQs,
        sentBodies := out.sentBodies, usedCursors := out.usedCursors }
  | .ok [] =>
      { result := .error .indexError, calls := out.calls, sentQs := out.sentQs,
        sentBodies := out.sentBodies, usedCursors := out.usedCursors }
  | .ok (first :: rest) =>
      { result :=
          match mergeAll pa first rest with
          | .error e => .error (.py e)
          | .ok fin => .ok fin,
        calls := out.calls, sentQs := out.sentQs,
        sentBodies := out.sentBodies, usedCursors := out.usedCursors }

/-- The function `v4request(q)` from the source, against one stub response: the pair of
the `"query"` field of the POSTed body and the decoded response body it
returns. -/
def v4request (resp : Response) (q : String) : String × Json :=
  (query q, resp.body)

/-- A successfully advancing page: status 200 and a truthy continuation
cursor, i.e. the loop requests at least one further page after it. -/
def advancesB (path_to_paginated_array : String) (r : Response) : Bool :=
  r.status_code == 200 &&
    match next_page r.body path_to_paginated_array with
    | .ok (some cv) => cv.truthy
    | _ => false

/-- Whether `sub` occurs as a contiguous substring of `s`. -/
def containsSub (s sub : String) : Bool :=
  (pySplit s sub).length != 1

/-! ### Lemmas about the path resolver and the functional write-back -/

theorem advancesB_eq_true (pa : String) (r : Response) :
    advancesB pa r = true ↔
      r.status_code = 200 ∧
        ∃ cv, next_page r.body pa = .ok (some cv) ∧ cv.truthy = true := by
  unfold advancesB
  rw [Bool.and_eq_true, Nat.beq_eq_true_eq]
  constructor
  · rintro ⟨h200, h⟩
    refine ⟨h200, ?_⟩
    cases hnp : next_page r.body pa with
    | error e => rw [hnp] at h; simp at h
    | ok c =>
        cases c with
        | none => rw [hnp] at h; simp at h
        | some cv => exact ⟨cv, rfl, by rw [hnp] at h; exact h⟩
  · rintro ⟨h200, cv, hnp, htr⟩
    exact ⟨h200, by rw [hnp]; exact htr⟩

theorem lookupKey_setKeysObj_self (k : String) (ks : List String) (w : Json) :
    ∀ kvs : List (String × Json),
      lookupKey k (setKeysObj kvs k ks w) =
        Option.map (fun v => setKeys v ks w) (lookupKey k kvs) := by
  intro kvs
  induction kvs with
  | nil => rfl
  | cons kv kvs ih =>
      by_cases h : kv.1 = k
      · simp [setKeysObj, lookupKey, h]
      · simp [setKeysObj, lookupKey, h, ih]

theorem lookupKey_setKeysObj_ne (k k' : String) (ks : List String) (w : Json)
    (hne : k' ≠ k) :
    ∀ kvs : List (String × Json),
      lookupKey k' (setKeysObj kvs k ks w) = lookupKey k' kvs := by
  intro kvs
  induction kvs with
  | nil => rfl
  | cons kv kvs ih =>
      have hkk : ¬ (k = k') := fun hc => hne hc.symm
      by_cases h : kv.1 = k
      · simp [setKeysObj, lookupKey, h, hkk, ih]
      · by_cases h3 : kv.1 = k'
        · simp [setKeysObj, lookupKey, h, h3, hne, hkk]
        · simp [setKeysObj, lookupKey, h, h3, ih]

theorem getKeys_setKeys_self :
    ∀ (ks : List String) (j v w : Json),
      getKeys j ks = .ok v → getKeys (setKeys j ks w) ks = .ok w := by
  intro ks
  induction ks with
  | nil => intro j v w _; simp [getKeys, setKeys]
  | cons k kt ih =>
      intro j v w h
      cases j with
      | obj kvs =>
          simp only [getKeys, Json.index] at h
          cases hl : lookupKey k kvs with
          | none => rw [hl] at h; simp at h
          | some v1 =>
              rw [hl] at h
              simp only [getKeys, setKeys, Json.index]
              rw [lookupKey_setKeysObj_self, hl]
              exact ih v1 v w h
      | null => simp [getKeys, Json.index] at h
      | bool b => simp [getKeys, Json.index] at h
      | num n => simp [getKeys, Json.index] at h
      | str s => simp [getKeys, Json.index] at h
      | arr l => simp [getKeys, Json.index] at h

theorem getKeys_setKeys_divergent :
    ∀ (ks ks' : List String) (j w : Json),
      ¬ ks <+: ks' → ¬ ks' <+: ks →
      getKeys (setKeys j ks w) ks' = getKeys j ks' := by
  intro ks
  induction ks with
  | nil => intro ks' j w h1 _; exact absurd List.nil_prefix h1
  | cons k kt ih =>
      intro ks' j w h1 h2
      cases ks' with
      | nil => exact absurd List.nil_prefix h2
      | cons k' kt' =>
          by_cases hk : k = k'
          · subst hk
            have h1' : ¬ kt <+: kt' := fun hc =>
              h1 (List.cons_prefix_cons.mpr ⟨rfl, hc⟩)
            have h2' : ¬ kt' <+: kt := fun hc =>
              h2 (List.cons_prefix_cons.mpr ⟨rfl, hc⟩)
            cases j with
            | obj kvs =>
                simp only [setKeys, getKeys, Json.index]
                rw [lookupKey_setKeysObj_self]
                cases hl : lookupKey k kvs with
                | none => simp
                | some v1 => simpa using ih kt' v1 w h1' h2'
            | null => rfl
            | bool b => rfl
            | num n => rfl
            | str s => rfl
            | arr l => rfl
          · cases j with
            | obj kvs =>
                simp only [setKeys, getKeys, Json.index]
                rw [lookupKey_setKeysObj_ne k k' kt w (fun hc => hk hc.symm)]
            | null => rfl
            | bool b => rfl
            | num n => rfl
            | str s => rfl
            | arr l => rfl

/-! ### Lemmas about the merge step -/

theorem merge_ok_arrays (ra rb : Json) (pa : String) (x y : List Json)
    (hx : get ra pa = .ok (.arr x)) (hy : get rb pa = .ok (.arr y)) :
    merge ra rb pa = .ok (setKeys ra (pySplit pa ".") (.arr (x ++ y))) := by
  simp [merge, hx, hy, pyIAdd]

theorem merge_frame (ra rb : Json) (pa : String) (r : Json)
    (h : merge ra rb pa = .ok r) (ks' : List String)
    (h1 : ¬ (pySplit pa ".") <+: ks') (h2 : ¬ ks' <+: (pySplit pa ".")) :
    getKeys r ks' = getKeys ra ks' := by
  cases hga : get ra pa with
  | error e => simp [merge, hga] at h
  | ok a =>
      cases hgb : get rb pa with
      | error e => simp [merge, hga, hgb] at h
      | ok b =>
          cases hia : pyIAdd a b with
          | error e => simp [merge, hga, hgb, hia] at h
          | ok p =>
              obtain ⟨newA, mutated⟩ := p
              simp only [merge, hga, hgb, hia, Except.ok.injEq] at h
              cases mutated with
              | true =>
                  simp only [if_true] at h
                  rw [← h]
                  exact getKeys_setKeys_divergent (pySplit pa ".") ks' ra newA h1 h2
              | false =>
                  simp only [Bool.false_eq_true, if_false] at h
                  rw [h]

theorem mergeAll_frame (pa : String) :
    ∀ (rs : List Json) (acc fin : Json),
      mergeAll pa acc rs = .ok fin →
      ∀ ks', ¬ (pySplit pa ".") <+: ks' → ¬ ks' <+: (pySplit pa ".") →
        getKeys fin ks' = getKeys acc ks' := by
  intro rs
  induction rs with
  | nil =>
      intro acc fin h ks' _ _
      simp only [mergeAll, Except.ok.injEq] at h
      rw [h]
  | cons r rs ih =>
      intro acc fin h ks' h1 h2
      simp only [mergeAll] at h
      cases hm : merge acc r pa with
      | error e => rw [hm] at h; simp at h
      | ok acc2 =>
          rw [hm] at h
          calc getKeys fin ks' = getKeys acc2 ks' := ih acc2 fin h ks' h1 h2
            _ = getKeys acc ks' := merge_frame acc r pa acc2 hm ks' h1 h2

theorem mergeAll_concat (pa : String) :
    ∀ (prs : List (Json × List Json)) (acc : Json) (a0 : List Json),
      get acc pa = .ok (.arr a0) →
      (∀ pr ∈ prs, get pr.1 pa = .ok (.arr pr.2)) →
      ∃ fin, mergeAll pa acc (prs.map Prod.fst) = .ok fin ∧
        get fin pa = .ok (.arr (a0 ++ (prs.map Prod.snd).flatten)) := by
  intro prs
  induction prs with
  | nil =>
      intro acc a0 hacc _
      exact ⟨acc, rfl, by simpa using hacc⟩
  | cons pr prs ih =>
      intro acc a0 hacc hall
      have hb : get pr.1 pa = .ok (.arr pr.2) := hall pr (List.mem_cons_self pr prs)
      have hm : merge acc pr.1 pa =
          .ok (setKeys acc (pySplit pa ".") (.arr (a0 ++ pr.2))) :=
        merge_ok_arrays acc pr.1 pa a0 pr.2 hacc hb
      have hacc2 : get (setKeys acc (pySplit pa ".") (.arr (a0 ++ pr.2))) pa =
          .ok (.arr (a0 ++ pr.2)) :=
        getKeys_setKeys_self (pySplit pa ".") acc (.arr a0) (.arr (a0 ++ pr.2)) hacc
      obtain ⟨fin, hfin, hget⟩ :=
        ih (setKeys acc (pySplit pa ".") (.arr (a0 ++ pr.2))) (a0 ++ pr.2) hacc2
          (fun q hq => hall q (List.mem_cons_of_mem pr hq))
      refine ⟨fin, ?_, ?_⟩
      · simp only [List.map_cons, mergeAll, hm]
        exact hfin
      · simpa [List.append_assoc] using hget

/-! ### Lemmas about the template formatting -/

theorem format2_exists (q : String) (hq : hasTwoSlots q = true) (a b : String) :
    ∃ fq, format2 q a b = .ok fq := by
  unfold hasTwoSlots at hq
  rw [Nat.beq_eq_true_eq] at hq
  obtain ⟨p0, p1, p2, hsp⟩ := List.length_eq_three.mp hq
  exact ⟨p0 ++ a ++ p1 ++ b ++ p2, by simp [format2, hsp]⟩

theorem paginationArgs_initial : paginationArgs (some (.str "")) = "first: 50" := by
  simp [paginationArgs, Json.truthy]

theorem paginationArgs_truthy (cv : Json) (htr : cv.truthy = true) :
    paginationArgs (some cv) = afterClause cv ++ "first: 50" := by
  simp [paginationArgs, htr]

/-! ### Lemmas about the request loop -/

theorem fetchPages_cons_fmtErr (q pa : String) (cu : Option Json)
    (r : Response) (rest : List Response) (e : PyErr)
    (hfmt : format2 q (paginationArgs cu) pageInfoFragment = .error e) :
    fetchPages q pa cu (r :: rest) =
      { collected := .error (.py e), calls := 0,
        sentQs := [], sentBodies := [], usedCursors := [] } := by
  simp [fetchPages, hfmt]

theorem fetchPages_cons_badStatus (q pa : String) (cu : Option Json)
    (r : Response) (rest : List Response) (fq : String)
    (hfmt : format2 q (paginationArgs cu) pageInfoFragment = .ok fq)
    (hst : r.status_code ≠ 200) :
    fetchPages q pa cu (r :: rest) =
      { collected := .error (.transport (errMsg r.status_code fq)),
        calls := 1, sentQs := [fq], sentBodies := [query fq],
        usedCursors := [cu] } := by
  simp [fetchPages, hfmt, hst]

theorem fetchPages_cons_npErr (q pa : String) (cu : Option Json)
    (r : Response) (rest : List Response) (fq : String) (e : PyErr)
    (hfmt : format2 q (paginationArgs cu) pageInfoFragment = .ok fq)
    (hst : r.status_code = 200)
    (hnp : next_page r.body pa = .error e) :
    fetchPages q pa cu (r :: rest) =
      { collected := .error (.py e), calls := 1, sentQs := [fq],
        sentBodies := [query fq], usedCursors := [cu] } := by
  simp [fetchPages, hfmt, hst, hnp]

theorem fetchPages_cons_stop (q pa : String) (cu : Option Json)
    (r : Response) (rest : List Response) (fq : String) (copt : Option Json)
    (hfmt : format2 q (paginationArgs cu) pageInfoFragment = .ok fq)
    (hst : r.status_code = 200)
    (hnp : next_page r.body pa = .ok copt)
    (hf : cursorTruthy copt = false) :
    fetchPages q pa cu (r :: rest) =
      { collected := .ok [r.body], calls := 1, sentQs := [fq],
        sentBodies := [query fq], usedCursors := [cu] } := by
  simp [fetchPages, hfmt, hst, hnp, hf]

theorem fetchPages_cons_advance (q pa : String) (cu : Option Json)
    (r : Response) (rest : List Response) (fq : String) (cv : Json)
    (hfmt : format2 q (paginationArgs cu) pageInfoFragment = .ok fq)
    (hst : r.status_code = 200)
    (hnp : next_page r.body pa = .ok (some cv))
    (htr : cv.truthy = true) :
    fetchPages q pa cu (r :: rest) =
      { collected := (fetchPages q pa (some cv) rest).collected.map (r.body :: ·),
        calls := (fetchPages q pa (some cv) rest).calls + 1,
        sentQs := fq :: (fetchPages q pa (some cv) rest).sentQs,
        sentBodies := query fq :: (fetchPages q pa (some cv) rest).sentBodies,
        usedCursors := cu :: (fetchPages q pa (some cv) rest).usedCursors } := by
  simp [fetchPages, hfmt, hst, hnp, cursorTruthy, htr]

theorem fetchPages_chain (q pa : String) (hq : hasTwoSlots q = true)
    (last : Response) (hlst : last.status_code = 200)
    (hlnp : next_page last.body pa = .ok none) :
    ∀ (mids : List Response) (cu : Option Json),
      (∀ r ∈ mids, advancesB pa r = true) →
      (fetchPages q pa cu (mids ++ [last])).collected =
        .ok (mids.map Response.body ++ [last.body]) ∧
      (fetchPages q pa cu (mids ++ [last])).calls = mids.length + 1 := by
  intro mids
  induction mids with
  | nil =>
      intro cu _
      obtain ⟨fq, hfq⟩ := format2_exists q hq (paginationArgs cu) pageInfoFragment
      rw [List.nil_append,
        fetchPages_cons_stop q pa cu last [] fq none hfq hlst hlnp rfl]
      simp
  | cons m mids ih =>
      intro cu hm
      obtain ⟨hst, cv, hnp, htr⟩ :=
        (advancesB_eq_true pa m).mp (hm m (List.mem_cons_self m mids))
      obtain ⟨fq, hfq⟩ := format2_exists q hq (paginationArgs cu) pageInfoFragment
      rw [List.cons_append,
        fetchPages_cons_advance q pa cu m (mids ++ [last]) fq cv hfq hst hnp htr]
      obtain ⟨hc, hn⟩ := ih (some cv) (fun r hr => hm r (List.mem_cons_of_mem m hr))
      constructor
      · simp [hc, Except.map]
      · simp [hn, Nat.add_comm]

theorem fetchPages_goodPrefix (q pa : String) (hq : hasTwoSlots q = true)
    (rest : List Response) :
    ∀ (good : List Response) (cu : Option Json),
      (∀ r ∈ good, advancesB pa r = true) →
      ∃ cu2,
        (fetchPages q pa cu (good ++ rest)).collected =
          ((fetchPages q pa cu2 rest).collected).map
            (fun l => good.map Response.body ++ l) ∧
        (fetchPages q pa cu (good ++ rest)).calls =
          good.length + (fetchPages q pa cu2 rest).calls := by
  intro good
  induction good with
  | nil =>
      intro cu _
      refine ⟨cu, ?_, by simp⟩
      cases h : (fetchPages q pa cu rest).collected with
      | error e => simp [h, Except.map]
      | ok l => simp [h, Except.map]
  | cons g good ih =>
      intro cu hm
      obtain ⟨hst, cv, hnp, htr⟩ :=
        (advancesB_eq_true pa g).mp (hm g (List.mem_cons_self g good))
      obtain ⟨fq, hfq⟩ := format2_exists q hq (paginationArgs cu) pageInfoFragment
      obtain ⟨cu2, hc, hn⟩ := ih (some cv) (fun r hr => hm r (List.mem_cons_of_mem g hr))
      refine ⟨cu2, ?_, ?_⟩
      · rw [List.cons_append,
          fetchPages_cons_advance q pa cu g (good ++ rest) fq cv hfq hst hnp htr]
        cases h2 : (fetchPages q pa cu2 rest).collected with
        | error e => simp [hc, h2, Except.map]
        | ok l =>
            have : (fetchPages q pa (some cv) (good ++ rest)).collected =
                .ok (good.map Response.body ++ l) := by
              rw [hc, h2]; rfl
            simp [this, Except.map]
      · rw [List.cons_append,
          fetchPages_cons_advance q pa cu g (good ++ rest) fq cv hfq hst hnp htr]
        simp [hn]
        omega

theorem fetchPages_transport_src (q pa : String) :
    ∀ (pages : List Response) (cu : Option Json) (m : String),
      (fetchPages q pa cu pages).collected = .error (.transport m) →
      ∃ i r, pages[i]? = some r ∧ r.status_code ≠ 200 ∧
        (fetchPages q pa cu pages).calls = i + 1 := by
  intro pages
  induction pages with
  | nil => intro cu m h; simp [fetchPages] at h
  | cons r rest ih =>
      intro cu m h
      cases hfmt : format2 q (paginationArgs cu) pageInfoFragment with
      | error e => rw [fetchPages_cons_fmtErr q pa cu r rest e hfmt] at h; simp at h
      | ok fq =>
          by_cases hst : r.status_code = 200
          · cases hnp : next_page r.body pa with
            | error e =>
                rw [fetchPages_cons_npErr q pa cu r rest fq e hfmt hst hnp] at h
                simp at h
            | ok copt =>
                by_cases htr : cursorTruthy copt = true
                · obtain ⟨cv, hcv⟩ : ∃ cv, copt = some cv := by
                    cases copt with
                    | none => simp [cursorTruthy] at htr
                    | some cv => exact ⟨cv, rfl⟩
                  subst hcv
                  rw [fetchPages_cons_advance q pa cu r rest fq cv hfmt hst hnp htr] at h ⊢
                  simp only at h
                  have hinner : (fetchPages q pa (some cv) rest).collected =
                      .error (.transport m) := by
                    cases h2 : (fetchPages q pa (some cv) rest).collected with
                    | error e => rw [h2] at h; simpa [Except.map] using h
                    | ok l => rw [h2] at h; simp [Except.map] at h
                  obtain ⟨i, rj, hget, hne, hcalls⟩ := ih (some cv) m hinner
                  exact ⟨i + 1, rj, by simpa using hget, hne, by simp [hcalls]⟩
                · rw [fetchPages_cons_stop q pa cu r rest fq copt hfmt hst hnp
                    (by simpa using htr)] at h
                  simp at h
          · rw [fetchPages_cons_badStatus q pa cu r rest fq hfmt hst] at h ⊢
            exact ⟨0, r, by simp, hst, rfl⟩

theorem fetchPages_ok_head (q pa : String) (cu : Option Json)
    (r : Response) (rest : List Response) (l : List Json)
    (h : (fetchPages q pa cu (r :: rest)).collected = .ok l) :
    ∃ t, l = r.body :: t := by
  cases hfmt : format2 q (paginationArgs cu) pageInfoFragment with
  | error e => rw [fetchPages_cons_fmtErr q pa cu r rest e hfmt] at h; simp at h
  | ok fq =>
      by_cases hst : r.status_code = 200
      · cases hnp : next_page r.body pa with
        | error e =>
            rw [fetchPages_cons_npErr q pa cu r rest fq e hfmt hst hnp] at h
            simp at h
        | ok copt =>
            by_cases htr : cursorTruthy copt = true
            · obtain ⟨cv, hcv⟩ : ∃ cv, copt = some cv := by
                cases copt with
                | none => simp [cursorTruthy] at htr
                | some cv => exact ⟨cv, rfl⟩
              subst hcv
              rw [fetchPages_cons_advance q pa cu r rest fq cv hfmt hst hnp htr] at h
              simp only at h
              cases h2 : (fetchPages q pa (some cv) rest).collected with
              | error e => rw [h2] at h; simp [Except.map] at h
              | ok t =>
                  rw [h2] at h
                  simp only [Except.map, Except.ok.injEq] at h
                  exact ⟨t, h.symm⟩
            · rw [fetchPages_cons_stop q pa cu r rest fq copt hfmt hst hnp
                (by simpa using htr)] at h
              simp only [Except.ok.injEq] at h
              exact ⟨[], h.symm⟩
      · rw [fetchPages_cons_badStatus q pa cu r rest fq hfmt hst] at h
        simp at h

theorem fetchPages_first_call (q pa : String) (hq : hasTwoSlots q = true)
    (cu : Option Json) (r : Response) (rest : List Response) :
    ∃ fq, format2 q (paginationArgs cu) pageInfoFragment = .ok fq ∧
      (fetchPages q pa cu (r :: rest)).sentQs[0]? = some fq ∧
      (fetchPages q pa cu (r :: rest)).usedCursors[0]? = some cu ∧
      1 ≤ (fetchPages q pa cu (r :: rest)).calls := by
  obtain ⟨fq, hfmt⟩ := format2_exists q hq (paginationArgs cu) pageInfoFragment
  refine ⟨fq, hfmt, ?_⟩
  by_cases hst : r.status_code = 200
  · cases hnp : next_page r.body pa with
    | error e =>
        rw [fetchPages_cons_npErr q pa cu r rest fq e hfmt hst hnp]
        simp
    | ok copt =>
        by_cases htr : cursorTruthy copt = true
        · obtain ⟨cv, hcv⟩ : ∃ cv, copt = some cv := by
            cases copt with
            | none => simp [cursorTruthy] at htr
            | some cv => exact ⟨cv, rfl⟩
          subst hcv
          rw [fetchPages_cons_advance q pa cu r rest fq cv hfmt hst hnp htr]
          simp
        · rw [fetchPages_cons_stop q pa cu r rest fq copt hfmt hst hnp
            (by simpa using htr)]
          simp
  · rw [fetchPages_cons_badStatus q pa cu r rest fq hfmt hst]
    simp

theorem fetchPages_bodies (q pa : String) :
    ∀ (pages : List Response) (cu : Option Json),
      (fetchPages q pa cu pages).sentBodies =
        (fetchPages q pa cu pages).sentQs.map query := by
  intro pages
  induction pages with
  | nil => intro cu; rfl
  | cons r rest ih =>
      intro cu
      cases hfmt : format2 q (paginationArgs cu) pageInfoFragment with
      | error e =>
          rw [fetchPages_cons_fmtErr q pa cu r rest e hfmt]
          rfl
      | ok fq =>
          by_cases hst : r.status_code = 200
          · cases hnp : next_page r.body pa with
            | error e =>
                rw [fetchPages_cons_npErr q pa cu r rest fq e hfmt hst hnp]
                rfl
            | ok copt =>
                by_cases htr : cursorTruthy copt = true
                · obtain ⟨cv, hcv⟩ : ∃ cv, copt = some cv := by
                    cases copt with
                    | none => simp [cursorTruthy] at htr
                    | some cv => exact ⟨cv, rfl⟩
                  subst hcv
                  rw [fetchPages_cons_advance q pa cu r rest fq cv hfmt hst hnp htr]
                  simp [ih (some cv)]
                · rw [fetchPages_cons_stop q pa cu r rest fq copt hfmt hst hnp
                    (by simpa using htr)]
                  rfl
          · rw [fetchPages_cons_badStatus q pa cu r rest fq hfmt hst]
            rfl

theorem fetchPages_sent (q pa : String) (hq : hasTwoSlots q = true) :
    ∀ (pages : List Response) (cu : Option Json),
      (fetchPages q pa cu pages).sentQs.length = (fetchPages q pa cu pages).calls ∧
      (∀ fq, (fetchPages q pa cu pages).sentQs[0]? = some fq →
        format2 q (paginationArgs cu) pageInfoFragment = .ok fq) ∧
      (∀ i fq, (fetchPages q pa cu pages).sentQs[i + 1]? = some fq →
        ∃ rj cv, pages[i]? = some rj ∧ rj.status_code = 200 ∧
          next_page rj.body pa = .ok (some cv) ∧ cv.truthy = true ∧
          format2 q (paginationArgs (some cv)) pageInfoFragment = .ok fq) := by
  intro pages
  induction pages with
  | nil =>
      intro cu
      refine ⟨rfl, ?_, ?_⟩
      · intro fq h; simp [fetchPages] at h
      · intro i fq h; simp [fetchPages] at h
  | cons r rest ih =>
      intro cu
      cases hfmt : format2 q (paginationArgs cu) pageInfoFragment with
      | error e =>
          obtain ⟨fq0, hfq0⟩ := format2_exists q hq (paginationArgs cu) pageInfoFragment
          rw [hfq0] at hfmt
          exact absurd hfmt (by simp)
      | ok fq =>
          by_cases hst : r.status_code = 200
          · cases hnp : next_page r.body pa with
            | error e =>
                rw [fetchPages_cons_npErr q pa cu r rest fq e hfmt hst hnp]
                refine ⟨rfl, ?_, ?_⟩
                · intro fq2 h2
                  simp only [List.getElem?_cons_zero, Option.some.injEq] at h2
                  exact congrArg Except.ok h2
                · intro i fq2 h2
                  simp at h2
            | ok copt =>
                by_cases htr : cursorTruthy copt = true
                · obtain ⟨cv, hcv⟩ : ∃ cv, copt = some cv := by
                    cases copt with
                    | none => simp [cursorTruthy] at htr
                    | some cv => exact ⟨cv, rfl⟩
                  subst hcv
                  have htr2 : cv.truthy = true := by simpa [cursorTruthy] using htr
                  rw [fetchPages_cons_advance q pa cu r rest fq cv hfmt hst hnp htr2]
                  obtain ⟨ihlen, ihhead, ihtail⟩ := ih (some cv)
                  refine ⟨by simp [ihlen], ?_, ?_⟩
                  · intro fq2 h2
                    simp only [List.getElem?_cons_zero, Option.some.injEq] at h2
                    exact congrArg Except.ok h2
                  · intro i fq2 h2
                    simp only [List.getElem?_cons_succ] at h2
                    cases i with
                    | zero =>
                        refine ⟨r, cv, by simp, hst, hnp, htr2, ihhead fq2 h2⟩
                    | succ i2 =>
                        obtain ⟨rj, cv2, hget, hst2, hnp2, htr3, hfmt2⟩ :=
                          ihtail i2 fq2 h2
                        exact ⟨rj, cv2, by simpa using hget, hst2, hnp2, htr3, hfmt2⟩
                · rw [fetchPages_cons_stop q pa cu r rest fq copt hfmt hst hnp
                    (by simpa using htr)]
                  refine ⟨rfl, ?_, ?_⟩
                  · intro fq2 h2
                    simp only [List.getElem?_cons_zero, Option.some.injEq] at h2
                    exact congrArg Except.ok h2
                  · intro i fq2 h2
                    simp at h2
          · rw [fetchPages_cons_badStatus q pa cu r rest fq hfmt hst]
            refine ⟨rfl, ?_, ?_⟩
            · intro fq2 h2
              simp only [List.getElem?_cons_zero, Option.some.injEq] at h2
              exact congrArg Except.ok h2
            · intro i fq2 h2
              simp at h2

/-! ### Bridge lemmas from the loop to the whole call -/

theorem v4_instrumentation (pages : List Response) (q p : String) :
    (v4request_all_pages pages q p).calls =
      (fetchPages q ("data." ++ p) (some (.str "")) pages).calls ∧
    (v4request_all_pages pages q p).sentQs =
      (fetchPages q ("data." ++ p) (some (.str "")) pages).sentQs ∧
    (v4request_all_pages pages q p).sentBodies =
      (fetchPages q ("data." ++ p) (some (.str "")) pages).sentBodies ∧
    (v4request_all_pages pages q p).usedCursors =
      (fetchPages q ("data." ++ p) (some (.str "")) pages).usedCursors := by
  unfold v4request_all_pages
  cases h : (fetchPages q ("data." ++ p) (some (.str "")) pages).collected with
  | error e => simp [h]
  | ok l => cases l <;> simp [h]

theorem v4_result_err (pages : List Response) (q p : String) (e : AggError)
    (h : (fetchPages q ("data." ++ p) (some (.str "")) pages).collected = .error e) :
    (v4request_all_pages pages q p).result = .error e := by
  unfold v4request_all_pages
  simp [h]

theorem v4_result_ok_cons (pages : List Response) (q p : String)
    (first : Json) (rest2 : List Json)
    (h : (fetchPages q ("data." ++ p) (some (.str "")) pages).collected =
      .ok (first :: rest2)) :
    (v4request_all_pages pages q p).result =
      (match mergeAll ("data." ++ p) first rest2 with
       | .error e => .error (.py e)
       | .ok fin => .ok fin) := by
  unfold v4request_all_pages
  simp [h]

theorem v4_result_ok_nil (pages : List Response) (q p : String)
    (h : (fetchPages q ("data." ++ p) (some (.str "")) pages).collected = .ok []) :
    (v4request_all_pages pages q p).result = .error .indexError := by
  unfold v4request_all_pages
  simp [h]

theorem v4_result_transport_src (pages : List Response) (q p : String) (m : String)
    (h : (v4request_all_pages pages q p).result = .error (.transport m)) :
    (fetchPages q ("data." ++ p) (some (.str "")) pages).collected =
      .error (.transport m) := by
  cases hc : (fetchPages q ("data." ++ p) (some (.str "")) pages).collected with
  | error e =>
      rw [v4_result_err pages q p e hc] at h
      injection h with h2
      rw [h2]
  | ok l =>
      cases l with
      | nil =>
          rw [v4_result_ok_nil pages q p hc] at h
          simp at h
      | cons first rest2 =>
          rw [v4_result_ok_cons pages q p first rest2 hc] at h
          cases hm : mergeAll ("data." ++ p) first rest2 with
          | error e => simp [hm] at h
          | ok fin => simp [hm] at h

/-! ### Concrete sample pages (status 200, shape `data.c.items` with sibling
`pageInfo`), used by the concrete counterexamples and witnesses below -/

/-- A well-shaped page response for the path `c.items`. -/
def mkPage (items : Json) (hnp : Bool) (cur : Json) : Response :=
  { status_code := 200, text := "",
    body := .obj [("data", .obj [("c", .obj [
      ("items", items),
      ("pageInfo", .obj [("hasNextPage", .bool hnp), ("endCursor", cur)])])])] }

/-- Page with array `["a"]`, a next page, and cursor "CUR". -/
def pageOneA : Response := mkPage (.arr [.str "a"]) true (.str "CUR")

/-- Terminal page with array `["b"]`. -/
def pageTwoB : Response := mkPage (.arr [.str "b"]) false .null

/-- Page reporting `hasNextPage: true` but with an empty `endCursor`. -/
def pageEmptyCursor : Response := mkPage (.arr [.str "a"]) true (.str "")

/-- Terminal page with an empty array. -/
def pageEmptyArr : Response := mkPage (.arr []) false .null

/-- Terminal page whose `data.c` object has no `items` key at all. -/
def pageNoItems : Response :=
  { status_code := 200, text := "",
    body := .obj [("data", .obj [("c", .obj [
      ("pageInfo", .obj [("hasNextPage", .bool false), ("endCursor", .null)])])])] }

/-- Page whose `data.c` object has no `pageInfo` key. -/
def pageNoPageInfo : Response :=
  { status_code := 200, text := "",
    body := .obj [("data", .obj [("c", .obj [("items", .arr [])])])] }

/-- A failed transport response: HTTP 500 with raw body text "boom". -/
def pageBad : Response := { status_code := 500, text := "boom", body := .null }

/-- Page whose target node is the string "xy" (not a list), advancing. -/
def pageStrX : Response := mkPage (.str "xy") true (.str "CUR")

/-- Terminal page whose target node is the string "z" (not a list). -/
def pageStrZ : Response := mkPage (.str "z") false .null

/-- Page whose target node is a mapping (dict), advancing. -/
def pageObjX : Response := mkPage (.obj []) true (.str "CUR")

/-- Page one with an extra sibling field `other` under `data`, for the frame
property. -/
def pageFrameOne : Response :=
  { status_code := 200, text := "",
    body := .obj [("data", .obj [
      ("other", .str "keep"),
      ("c", .obj [
        ("items", .arr [.str "a"]),
        ("pageInfo", .obj [("hasNextPage", .bool true), ("endCursor", .str "CUR")])])])] }

/-! ### The claims -/

/-- C1 (amended): for every two-slot query template and every chain of N ≥ 1
well-shaped page responses with target arrays a₁..aₙ in which every
non-final page advances (status 200, `hasNextPage` truthy AND a truthy
`endCursor`) and the final page is terminal, `v4request_all_pages` makes
exactly N transport calls and returns a document whose array at
`"data." ++ path` is the concatenation a₁ ++ ... ++ aₙ in fetch order, of
length Σ|aᵢ|.  (The original claim, which only required `hasNextPage` to be
false exactly on the last page, fails when a non-final page carries a falsy
`endCursor`; see the counterexample.) -/
theorem C1_aggregate_concatenation (q p : String)
    (pairs : List (Response × List Json)) (last : Response) (lastArr : List Json)
    (hq : hasTwoSlots q = true)
    (hmids : ∀ pr ∈ pairs, advancesB ("data." ++ p) pr.1 = true ∧
      get pr.1.body ("data." ++ p) = .ok (.arr pr.2))
    (hlast200 : last.status_code = 200)
    (hlastnp : next_page last.body ("data." ++ p) = .ok none)
    (hlastarr : get last.body ("data." ++ p) = .ok (.arr lastArr)) :
    (v4request_all_pages (pairs.map Prod.fst ++ [last]) q p).calls = pairs.length + 1 ∧
    ∃ fin, (v4request_all_pages (pairs.map Prod.fst ++ [last]) q p).result = .ok fin ∧
      get fin ("data." ++ p) = .ok (.arr ((pairs.map Prod.snd).flatten ++ lastArr)) ∧
      ((pairs.map Prod.snd).flatten ++ lastArr).length =
        (pairs.map (fun pr => pr.2.length)).sum + lastArr.length := by
  have hmidsAdv : ∀ r ∈ pairs.map Prod.fst, advancesB ("data." ++ p) r = true := by
    intro r hr
    obtain ⟨pr, hpr, heq⟩ := List.mem_map.mp hr
    rw [← heq]
    exact (hmids pr hpr).1
  obtain ⟨hcol, hcalls⟩ :=
    fetchPages_chain q ("data." ++ p) hq last hlast200 hlastnp
      (pairs.map Prod.fst) (some (.str "")) hmidsAdv
  constructor
  · rw [(v4_instrumentation (pairs.map Prod.fst ++ [last]) q p).1, hcalls]
    simp
  · cases pairs with
    | nil =>
        have hcol' : (fetchPages q ("data." ++ p) (some (.str ""))
            (List.map Prod.fst ([] : List (Response × List Json)) ++ [last])).collected =
            .ok (last.body :: []) := hcol
        rw [v4_result_ok_cons _ q p last.body [] hcol']
        exact ⟨last.body, rfl, hlastarr, by simp⟩
    | cons pr0 prs =>
        have hcol' : (fetchPages q ("data." ++ p) (some (.str ""))
            ((pr0 :: prs).map Prod.fst ++ [last])).collected =
            .ok (pr0.1.body :: ((prs.map Prod.fst).map Response.body ++ [last.body])) := by
          simpa using hcol
        rw [v4_result_ok_cons ((pr0 :: prs).map Prod.fst ++ [last]) q p pr0.1.body
          ((prs.map Prod.fst).map Response.body ++ [last.body]) hcol']
        have hall : ∀ pr ∈ prs.map (fun pr => (pr.1.body, pr.2)) ++ [(last.body, lastArr)],
            get pr.1 ("data." ++ p) = .ok (.arr pr.2) := by
          intro pr hpr
          rcases List.mem_append.mp hpr with hl | hr
          · obtain ⟨pr2, hpr2, heq⟩ := List.mem_map.mp hl
            rw [← heq]
            exact (hmids pr2 (List.mem_cons_of_mem pr0 hpr2)).2
          · rw [List.mem_singleton.mp hr]
            exact hlastarr
        obtain ⟨fin, hfin, hget⟩ :=
          mergeAll_concat ("data." ++ p)
            (prs.map (fun pr => (pr.1.body, pr.2)) ++ [(last.body, lastArr)])
            pr0.1.body pr0.2
            (hmids pr0 (List.mem_cons_self pr0 prs)).2 hall
        have hrest2 : (prs.map Prod.fst).map Response.body ++ [last.body] =
            (prs.map (fun pr => (pr.1.body, pr.2)) ++ [(last.body, lastArr)]).map Prod.fst := by
          simp [List.map_map]
        rw [hrest2, hfin]
        have harr : pr0.2 ++
            ((prs.map (fun pr => (pr.1.body, pr.2)) ++ [(last.body, lastArr)]).map
              Prod.snd).flatten =
            ((pr0 :: prs).map Prod.snd).flatten ++ lastArr := by
          simp [List.map_append, List.map_map, List.flatten_append, List.flatten_cons,
            List.append_assoc]
          rfl
        rw [harr] at hget
        refine ⟨fin, rfl, hget, ?_⟩
        rw [List.length_append, List.length_flatten, List.map_map]
        have h3 : (List.length ∘ Prod.snd : Response × List Json → Nat) =
            (fun pr => pr.2.length) := rfl
        rw [h3]

/-- C1, counterexample to the original claim: a two-page sequence in which
only the last page reports `hasNextPage: false`, yet because the first
page's `endCursor` is the empty string the loop stops after one call and
the returned array is `["a"]` (length 1), not the concatenation
`["a", "b"]` (length 2). -/
theorem C1_counterexample :
    getKeys pageEmptyCursor.body ["data", "c", "pageInfo", "hasNextPage"] =
      .ok (.bool true) ∧
    getKeys pageTwoB.body ["data", "c", "pageInfo", "hasNextPage"] =
      .ok (.bool false) ∧
    get pageEmptyCursor.body "data.c.items" = .ok (.arr [.str "a"]) ∧
    get pageTwoB.body "data.c.items" = .ok (.arr [.str "b"]) ∧
    (v4request_all_pages [pageEmptyCursor, pageTwoB] "%s%s" "c.items").calls = 1 ∧
    (v4request_all_pages [pageEmptyCursor, pageTwoB] "%s%s" "c.items").result =
      .ok pageEmptyCursor.body ∧
    [Json.str "a"].length ≠ 2 :=
  ⟨rfl, rfl, rfl, rfl, rfl, rfl, by decide⟩

/-- C1, witness: the amended theorem applied to a concrete two-page chain. -/
theorem C1_aggregate_concatenation_witness :
    (v4request_all_pages ([(pageOneA, [Json.str "a"])].map Prod.fst ++ [pageTwoB])
      "%s%s" "c.items").calls = 2 ∧
    ∃ fin, (v4request_all_pages ([(pageOneA, [Json.str "a"])].map Prod.fst ++ [pageTwoB])
        "%s%s" "c.items").result = .ok fin ∧
      get fin ("data." ++ "c.items") =
        .ok (.arr (([( pageOneA, [Json.str "a"])].map Prod.snd).flatten ++ [Json.str "b"])) ∧
      (([(pageOneA, [Json.str "a"])].map Prod.snd).flatten ++ [Json.str "b"]).length =
        ([(pageOneA, [Json.str "a"])].map (fun pr => pr.2.length)).sum +
          [Json.str "b"].length := by
  refine C1_aggregate_concatenation "%s%s" "c.items" [(pageOneA, [Json.str "a"])]
    pageTwoB [Json.str "b"] rfl ?_ rfl rfl rfl
  intro pr hpr
  have hpr2 : pr = (pageOneA, [Json.str "a"]) := by simpa using hpr
  rw [hpr2]
  exact ⟨rfl, rfl⟩

/-- C5: a first page with status 200 whose pagination-info reports
`hasNextPage: false` yields exactly one transport call and the first page
document returned unchanged, whatever its target array (empty included) —
no error is raised. -/
theorem C5_single_page (q p : String) (r : Response) (rest : List Response)
    (pi : Json)
    (hq : hasTwoSlots q = true)
    (hst : r.status_code = 200)
    (hpi : getKeys r.body (pageInfoKeys ("data." ++ p)) = .ok pi)
    (hhn : Json.index pi "hasNextPage" = .ok (.bool false)) :
    (v4request_all_pages (r :: rest) q p).result = .ok r.body ∧
    (v4request_all_pages (r :: rest) q p).calls = 1 := by
  have hnp : next_page r.body ("data." ++ p) = .ok none := by
    simp [next_page, hpi, hhn, Json.truthy]
  obtain ⟨fq, hfmt⟩ := format2_exists q hq
    (paginationArgs (some (.str ""))) pageInfoFragment
  have hstop := fetchPages_cons_stop q ("data." ++ p) (some (.str "")) r rest fq
    none hfmt hst hnp rfl
  have hcol : (fetchPages q ("data." ++ p) (some (.str "")) (r :: rest)).collected =
      .ok (r.body :: []) := by rw [hstop]
  constructor
  · rw [v4_result_ok_cons (r :: rest) q p r.body [] hcol]
    rfl
  · rw [(v4_instrumentation (r :: rest) q p).1, hstop]

/-- C5, witness: a concrete single terminal page whose target array is
empty: one call, the page returned unchanged, the array in the result is
the empty array. -/
theorem C5_single_page_witness :
    ((v4request_all_pages [pageEmptyArr] "%s%s" "c.items").result =
      .ok pageEmptyArr.body ∧
     (v4request_all_pages [pageEmptyArr] "%s%s" "c.items").calls = 1) ∧
    get pageEmptyArr.body "data.c.items" = .ok (.arr []) :=
  ⟨C5_single_page "%s%s" "c.items" pageEmptyArr []
    (.obj [("hasNextPage", .bool false), ("endCursor", .null)])
    rfl rfl rfl rfl, rfl⟩

/-- C2 (amended): with a well-formed two-slot template, the pagination loop
terminates exactly when the current page's pagination info yields no truthy
continuation cursor — `hasNextPage` falsy, OR `endCursor` itself falsy
(empty string / null); when `hasNextPage` is truthy and `endCursor` truthy,
the loop issues exactly one further request whose `after:` cursor is that
`endCursor` (against a stub with no further response this surfaces as the
stub running out).  (The original claim — termination exactly on
`hasNextPage: false` — fails when `hasNextPage` is true but `endCursor` is
empty; see the counterexample.) -/
theorem C2_loop_termination (q p : String) (r : Response) (rest : List Response)
    (copt : Option Json)
    (hq : hasTwoSlots q = true)
    (hst : r.status_code = 200)
    (hnp : next_page r.body ("data." ++ p) = .ok copt) :
    (cursorTruthy copt = false →
      (v4request_all_pages (r :: rest) q p).calls = 1 ∧
      (v4request_all_pages (r :: rest) q p).result = .ok r.body) ∧
    (∀ cv, copt = some cv → cv.truthy = true →
      (rest = [] →
        (v4request_all_pages (r :: rest) q p).calls = 1 ∧
        (v4request_all_pages (r :: rest) q p).result = .error .stubExhausted) ∧
      (∀ r2 rest2, rest = r2 :: rest2 →
        2 ≤ (v4request_all_pages (r :: rest) q p).calls ∧
        (v4request_all_pages (r :: rest) q p).usedCursors[1]? = some (some cv) ∧
        ∃ fq2, (v4request_all_pages (r :: rest) q p).sentQs[1]? = some fq2 ∧
          format2 q (afterClause cv ++ "first: 50") pageInfoFragment = .ok fq2)) := by
  obtain ⟨fq, hfmt⟩ := format2_exists q hq
    (paginationArgs (some (.str ""))) pageInfoFragment
  constructor
  · intro hfalsy
    have hstop := fetchPages_cons_stop q ("data." ++ p) (some (.str "")) r rest fq
      copt hfmt hst hnp hfalsy
    constructor
    · rw [(v4_instrumentation (r :: rest) q p).1, hstop]
    · have hcol : (fetchPages q ("data." ++ p) (some (.str "")) (r :: rest)).collected =
          .ok (r.body :: []) := by rw [hstop]
      rw [v4_result_ok_cons (r :: rest) q p r.body [] hcol]
      rfl
  · intro cv hcv htr
    subst hcv
    have hadv := fetchPages_cons_advance q ("data." ++ p) (some (.str "")) r rest fq
      cv hfmt hst hnp htr
    constructor
    · intro hrest
      subst hrest
      constructor
      · rw [(v4_instrumentation (r :: []) q p).1, hadv]
        simp [fetchPages]
      · have hcol : (fetchPages q ("data." ++ p) (some (.str "")) (r :: [])).collected =
            .error .stubExhausted := by
          rw [hadv]
          simp [fetchPages, Except.map]
        exact v4_result_err (r :: []) q p .stubExhausted hcol
    · intro r2 rest2 hrest
      subst hrest
      obtain ⟨fq2, hfmt2, hq0, hc0, hcalls1⟩ :=
        fetchPages_first_call q ("data." ++ p) hq (some cv) r2 rest2
      refine ⟨?_, ?_, fq2, ?_, ?_⟩
      · rw [(v4_instrumentation (r :: r2 :: rest2) q p).1, hadv]
        simp only
        omega
      · rw [(v4_instrumentation (r :: r2 :: rest2) q p).2.2.2, hadv]
        simpa using hc0
      · rw [(v4_instrumentation (r :: r2 :: rest2) q p).2.1, hadv]
        simpa using hq0
      · rw [← paginationArgs_truthy cv htr]
        exact hfmt2

/-- C2, counterexample to the original claim: a page that reports
`hasNextPage: true` but an empty-string `endCursor`: the loop terminates
after a single call and never issues the further request the claim
promises. -/
theorem C2_counterexample :
    getKeys pageEmptyCursor.body ["data", "c", "pageInfo", "hasNextPage"] =
      .ok (.bool true) ∧
    getKeys pageEmptyCursor.body ["data", "c", "pageInfo", "endCursor"] =
      .ok (.str "") ∧
    (v4request_all_pages [pageEmptyCursor, pageTwoB] "%s%s" "c.items").calls = 1 ∧
    (v4request_all_pages [pageEmptyCursor, pageTwoB] "%s%s" "c.items").sentQs.length = 1 :=
  ⟨rfl, rfl, rfl, rfl⟩

/-- C2, witness: the amended theorem applied to a concrete advancing page:
the second request is issued and carries the first page's cursor "CUR". -/
theorem C2_loop_termination_witness :
    2 ≤ (v4request_all_pages [pageOneA, pageTwoB] "%s%s" "c.items").calls ∧
    (v4request_all_pages [pageOneA, pageTwoB] "%s%s" "c.items").usedCursors[1]? =
      some (some (.str "CUR")) ∧
    ∃ fq2, (v4request_all_pages [pageOneA, pageTwoB] "%s%s" "c.items").sentQs[1]? =
        some fq2 ∧
      format2 "%s%s" (afterClause (.str "CUR") ++ "first: 50") pageInfoFragment =
        .ok fq2 :=
  ((C2_loop_termination "%s%s" "c.items" pageOneA [pageTwoB] (some (.str "CUR"))
      rfl rfl rfl).2 (.str "CUR") rfl rfl).2 pageTwoB [] rfl

/-- C3 (amended): the aggregation raises the transport exception exactly
when some requested page has HTTP status different from 200 (any non-200
status, success codes such as 201/204 included); the raised message carries
the formatted query and the *short representation* of the response object
(`<Response [code]>`), not the raw response body; the loop stops right
there (the page after a failing page is never requested) and no document is
returned.  (The original claim — "non-success status", error "carries the
raw response body" — fails on the body part; see the counterexample.) -/
theorem C3_transport_error (q p : String) (hq : hasTwoSlots q = true) :
    (∀ (good : List Response) (bad : Response) (rest : List Response),
      (∀ r ∈ good, advancesB ("data." ++ p) r = true) →
      bad.status_code ≠ 200 →
      (∃ fq, (v4request_all_pages (good ++ bad :: rest) q p).result =
          .error (.transport (errMsg bad.status_code fq))) ∧
      (v4request_all_pages (good ++ bad :: rest) q p).calls = good.length + 1) ∧
    (∀ (pages : List Response) (m : String),
      (v4request_all_pages pages q p).result = .error (.transport m) →
      ∃ i r2, pages[i]? = some r2 ∧ r2.status_code ≠ 200 ∧
        (v4request_all_pages pages q p).calls = i + 1) := by
  constructor
  · intro good bad rest hgood hbad
    obtain ⟨cu2, hcol2, hcalls2⟩ :=
      fetchPages_goodPrefix q ("data." ++ p) hq (bad :: rest) good (some (.str "")) hgood
    obtain ⟨fq, hfmt⟩ := format2_exists q hq (paginationArgs cu2) pageInfoFragment
    have hbadrec := fetchPages_cons_badStatus q ("data." ++ p) cu2 bad rest fq hfmt hbad
    have hcol : (fetchPages q ("data." ++ p) (some (.str ""))
        (good ++ bad :: rest)).collected =
        .error (.transport (errMsg bad.status_code fq)) := by
      rw [hcol2]
      simp [hbadrec, Except.map]
    constructor
    · exact ⟨fq, v4_result_err (good ++ bad :: rest) q p _ hcol⟩
    · rw [(v4_instrumentation (good ++ bad :: rest) q p).1, hcalls2]
      simp [hbadrec]
  · intro pages m h
    have hcol := v4_result_transport_src pages q p m h
    obtain ⟨i, r2, hget, hne, hcalls⟩ :=
      fetchPages_transport_src q ("data." ++ p) pages (some (.str "")) m hcol
    refine ⟨i, r2, hget, hne, ?_⟩
    rw [(v4_instrumentation pages q p).1]
    exact hcalls

/-- C3, counterexample to the original claim: a 500 response whose raw body
text is "boom"; the raised transport message does not contain the body at
all (it contains `<Response [500]>` instead). -/
theorem C3_counterexample :
    pageBad.text = "boom" ∧
    (v4request_all_pages [pageBad] "%s%s" "c.items").result =
      .error (.transport (errMsg 500 ("first: 50" ++ pageInfoFragment))) ∧
    containsSub (errMsg 500 ("first: 50" ++ pageInfoFragment)) pageBad.text = false :=
  ⟨rfl, rfl, rfl⟩

/-- C3, witness: the amended theorem applied to the 500-status stub on page
2 of a 3-page stub: exactly 2 calls, page 3 never requested, transport
error raised. -/
theorem C3_transport_error_witness :
    (∃ fq, (v4request_all_pages ([pageOneA] ++ pageBad :: [pageTwoB]) "%s%s"
        "c.items").result = .error (.transport (errMsg pageBad.status_code fq))) ∧
    (v4request_all_pages ([pageOneA] ++ pageBad :: [pageTwoB]) "%s%s"
      "c.items").calls = [pageOneA].length + 1 :=
  (C3_transport_error "%s%s" "c.items" rfl).1 [pageOneA] pageBad [pageTwoB]
    (by intro r hr; rw [List.mem_singleton.mp hr]; rfl) (by decide)

/-- C4 (amended): a key missing along the sibling `pageInfo` path of any
reached page aborts the whole aggregation with the propagated `KeyError`
(no partial document is returned); a key missing along the target-array
path aborts when at least two pages are aggregated (the failure surfaces
in the merge phase); but in a single-page aggregation the target-array path
is never resolved at all, so its absence there is silently tolerated and
the page is returned as-is (see the counterexample to the original
claim). -/
theorem C4_path_errors (q p : String) (hq : hasTwoSlots q = true) :
    (∀ (good : List Response) (r : Response) (rest : List Response) (e : PyErr),
      (∀ g ∈ good, advancesB ("data." ++ p) g = true) →
      r.status_code = 200 →
      next_page r.body ("data." ++ p) = .error e →
      (v4request_all_pages (good ++ r :: rest) q p).result = .error (.py e) ∧
      (v4request_all_pages (good ++ r :: rest) q p).calls = good.length + 1) ∧
    (∀ (r last : Response) (e : PyErr),
      advancesB ("data." ++ p) r = true →
      last.status_code = 200 →
      next_page last.body ("data." ++ p) = .ok none →
      get r.body ("data." ++ p) = .error e →
      (v4request_all_pages [r, last] q p).result = .error (.py e) ∧
      (v4request_all_pages [r, last] q p).calls = 2) := by
  constructor
  · intro good r rest e hgood hst hnp
    obtain ⟨cu2, hcol2, hcalls2⟩ :=
      fetchPages_goodPrefix q ("data." ++ p) hq (r :: rest) good (some (.str "")) hgood
    obtain ⟨fq, hfmt⟩ := format2_exists q hq (paginationArgs cu2) pageInfoFragment
    have herr := fetchPages_cons_npErr q ("data." ++ p) cu2 r rest fq e hfmt hst hnp
    have hcol : (fetchPages q ("data." ++ p) (some (.str ""))
        (good ++ r :: rest)).collected = .error (.py e) := by
      rw [hcol2]
      simp [herr, Except.map]
    constructor
    · exact v4_result_err (good ++ r :: rest) q p _ hcol
    · rw [(v4_instrumentation (good ++ r :: rest) q p).1, hcalls2]
      simp [herr]
  · intro r last e hadv hst hnp hgr
    have hchain := fetchPages_chain q ("data." ++ p) hq last hst hnp [r]
      (some (.str "")) (by intro x hx; rw [List.mem_singleton.mp hx]; exact hadv)
    have hcol : (fetchPages q ("data." ++ p) (some (.str "")) [r, last]).collected =
        .ok (r.body :: [last.body]) := by simpa using hchain.1
    have hmerge : merge r.body last.body ("data." ++ p) = .error e := by
      simp [merge, hgr]
    constructor
    · rw [v4_result_ok_cons [r, last] q p r.body [last.body] hcol]
      simp [mergeAll, hmerge]
    · rw [(v4_instrumentation [r, last] q p).1]
      simpa using hchain.2

/-- C4, counterexample to the original claim: a single-page aggregation in
which the `items` key is absent along the target-array path: the call
succeeds and returns the page — it does not raise any path error, because
a single-page run never resolves the target-array path. -/
theorem C4_counterexample :
    get pageNoItems.body "data.c.items" = .error (.keyError "items") ∧
    (v4request_all_pages [pageNoItems] "%s%s" "c.items").result =
      .ok pageNoItems.body ∧
    (v4request_all_pages [pageNoItems] "%s%s" "c.items").calls = 1 :=
  ⟨rfl, rfl, rfl⟩

/-- C4, witness: a page with no `pageInfo` key aborts the aggregation with
the propagated `KeyError`, exactly one call made, no document returned. -/
theorem C4_path_errors_witness :
    (v4request_all_pages [pageNoPageInfo] "%s%s" "c.items").result =
      .error (.py (.keyError "pageInfo")) ∧
    (v4request_all_pages [pageNoPageInfo] "%s%s" "c.items").calls = 1 :=
  (C4_path_errors "%s%s" "c.items" rfl).1 [] pageNoPageInfo [] (.keyError "pageInfo")
    (by intro g hg; simp at hg) rfl rfl

/-- The document obtained by merging `pageTwoB` into `pageFrameOne`: only
the `items` array changed; the sibling field `other` and everything else is
the first page's. -/
def pageFrameMerged : Json :=
  .obj [("data", .obj [
    ("other", .str "keep"),
    ("c", .obj [
      ("items", .arr [.str "a", .str "b"]),
      ("pageInfo", .obj [("hasNextPage", .bool true), ("endCursor", .str "CUR")])])])]

/-- C6 (amended): in a two-page aggregation whose target nodes resolve to
`a` (accumulator) and `b` (current page), the merge step fails with the
propagated `TypeError` precisely when Python's in-place add `a += b` is
unsupported for those values (e.g. a mapping or null accumulator, or a list
accumulator with a non-iterable addend); when the in-place add is supported
but merely rebinds the local name (both nodes strings, or numbers), the
merge is silently a no-op and the first page is returned unchanged.  A
non-list target is never treated as an empty array — but contrary to the
original claim it is not always a fatal `TypeError` either (see the
counterexample). -/
theorem C6_merge_type_errors (q p : String) (hq : hasTwoSlots q = true)
    (r last : Response) (a b : Json)
    (hadv : advancesB ("data." ++ p) r = true)
    (hlst : last.status_code = 200)
    (hlnp : next_page last.body ("data." ++ p) = .ok none)
    (ha : get r.body ("data." ++ p) = .ok a)
    (hb : get last.body ("data." ++ p) = .ok b) :
    (pyIAdd a b = .error .typeError →
      (v4request_all_pages [r, last] q p).result = .error (.py .typeError)) ∧
    (∀ v, pyIAdd a b = .ok (v, false) →
      (v4request_all_pages [r, last] q p).result = .ok r.body) := by
  have hchain := fetchPages_chain q ("data." ++ p) hq last hlst hlnp [r]
    (some (.str "")) (by intro x hx; rw [List.mem_singleton.mp hx]; exact hadv)
  have hcol : (fetchPages q ("data." ++ p) (some (.str "")) [r, last]).collected =
      .ok (r.body :: [last.body]) := by simpa using hchain.1
  constructor
  · intro hia
    have hmerge : merge r.body last.body ("data." ++ p) = .error .typeError := by
      simp [merge, ha, hb, hia]
    rw [v4_result_ok_cons [r, last] q p r.body [last.body] hcol]
    simp [mergeAll, hmerge]
  · intro v hia
    have hmerge : merge r.body last.body ("data." ++ p) = .ok r.body := by
      simp [merge, ha, hb, hia]
    rw [v4_result_ok_cons [r, last] q p r.body [last.body] hcol]
    simp [mergeAll, hmerge]

/-- C6, counterexample to the original claim: both pages' target nodes are
strings (exist but are not lists): the two-page aggregation does NOT fail
with a TypeError-style condition — Python `str += str` rebinds a local, the
merge silently does nothing, and the first page is returned unchanged. -/
theorem C6_counterexample :
    get pageStrX.body "data.c.items" = .ok (.str "xy") ∧
    get pageStrZ.body "data.c.items" = .ok (.str "z") ∧
    (v4request_all_pages [pageStrX, pageStrZ] "%s%s" "c.items").result =
      .ok pageStrX.body ∧
    (v4request_all_pages [pageStrX, pageStrZ] "%s%s" "c.items").calls = 2 :=
  ⟨rfl, rfl, rfl, rfl⟩

/-- C6, witness: a mapping-valued accumulator target does raise the
TypeError (`dict` supports no `+=`), failing the aggregation. -/
theorem C6_merge_type_errors_witness :
    (v4request_all_pages [pageObjX, pageTwoB] "%s%s" "c.items").result =
      .error (.py .typeError) :=
  (C6_merge_type_errors "%s%s" "c.items" rfl pageObjX pageTwoB (.obj [])
    (.arr [.str "b"]) rfl rfl rfl rfl rfl).1 rfl

/-- C7: whenever a multi-page aggregation returns a document, that document
agrees with the first page's document on every path that diverges from the
target-array path (neither a prefix nor an extension of it): later pages
contribute nothing outside the target array. -/
theorem C7_frame (q p : String) (r : Response) (rest : List Response) (fin : Json)
    (hok : (v4request_all_pages (r :: rest) q p).result = .ok fin)
    (_hmulti : 2 ≤ (v4request_all_pages (r :: rest) q p).calls)
    (ks' : List String)
    (h1 : ¬ pySplit ("data." ++ p) "." <+: ks')
    (h2 : ¬ ks' <+: pySplit ("data." ++ p) ".") :
    getKeys fin ks' = getKeys r.body ks' := by
  cases hc : (fetchPages q ("data." ++ p) (some (.str "")) (r :: rest)).collected with
  | error e =>
      rw [v4_result_err (r :: rest) q p e hc] at hok
      exact absurd hok (by simp)
  | ok l =>
      cases l with
      | nil =>
          rw [v4_result_ok_nil (r :: rest) q p hc] at hok
          exact absurd hok (by simp)
      | cons first rest2 =>
          obtain ⟨t, ht⟩ :=
            fetchPages_ok_head q ("data." ++ p) (some (.str "")) r rest
              (first :: rest2) hc
          injection ht with hfirst hrest2
          rw [v4_result_ok_cons (r :: rest) q p first rest2 hc] at hok
          cases hm : mergeAll ("data." ++ p) first rest2 with
          | error e => simp [hm] at hok
          | ok fin2 =>
              simp only [hm, Except.ok.injEq] at hok
              subst hok
              have hframe := mergeAll_frame ("data." ++ p) rest2 first fin2 hm ks' h1 h2
              rw [hfirst] at hframe
              exact hframe

/-- C7, witness: concrete two-page run with an extra sibling field `other`
under `data`: the merged result agrees with page one at the diverging path
`data.other`. -/
theorem C7_frame_witness :
    getKeys pageFrameMerged ["data", "other"] =
      getKeys pageFrameOne.body ["data", "other"] :=
  C7_frame "%s%s" "c.items" pageFrameOne [pageTwoB] pageFrameMerged rfl (by decide)
    ["data", "other"] (by decide) (by decide)

/-- C8: with a two-slot template, each loop iteration substitutes exactly
two values in order: first the pagination arguments — the very first
request uses just the fixed page-size directive `first: 50` (no cursor from
a previous page exists yet), and every later request uses
`after: "<cursor>" ` with the previous page's truthy `endCursor`, followed
by `first: 50` — and second the fixed pagination-info fragment
`pageInfo { endCursor hasNextPage }`. -/
theorem C8_formatting (q p : String) (pages : List Response)
    (hq : hasTwoSlots q = true) :
    (v4request_all_pages pages q p).sentQs.length =
      (v4request_all_pages pages q p).calls ∧
    (∀ fq, (v4request_all_pages pages q p).sentQs[0]? = some fq →
      format2 q "first: 50" pageInfoFragment = .ok fq) ∧
    (∀ i fq, (v4request_all_pages pages q p).sentQs[i + 1]? = some fq →
      ∃ rj cv, pages[i]? = some rj ∧
        next_page rj.body ("data." ++ p) = .ok (some cv) ∧ cv.truthy = true ∧
        format2 q (afterClause cv ++ "first: 50") pageInfoFragment = .ok fq) := by
  obtain ⟨hlen, hhead, htail⟩ :=
    fetchPages_sent q ("data." ++ p) hq pages (some (.str ""))
  obtain ⟨hc, hs, hb, hu⟩ := v4_instrumentation pages q p
  refine ⟨by rw [hs, hc]; exact hlen, ?_, ?_⟩
  · intro fq h
    rw [hs] at h
    have h2 := hhead fq h
    rwa [paginationArgs_initial] at h2
  · intro i fq h
    rw [hs] at h
    obtain ⟨rj, cv, hget, hst2, hnp2, htr2, hfmt2⟩ := htail i fq h
    refine ⟨rj, cv, hget, hnp2, htr2, ?_⟩
    rwa [paginationArgs_truthy cv htr2] at hfmt2

/-- C8, witness: the formatting theorem applied to a concrete two-page
run. -/
theorem C8_formatting_witness :
    (v4request_all_pages [pageOneA, pageTwoB] "%s%s" "c.items").sentQs.length =
      (v4request_all_pages [pageOneA, pageTwoB] "%s%s" "c.items").calls :=
  (C8_formatting "%s%s" "c.items" [pageOneA, pageTwoB] rfl).1

/-- C9: aggregation is deterministic in the stub transport: two calls with
the same template, path and identical canned page sequences produce
deep-equal outcomes (same returned document, same number of transport
calls, same requests). -/
theorem C9_idempotent (pages1 pages2 : List Response) (q p : String)
    (h : pages1 = pages2) :
    v4request_all_pages pages1 q p = v4request_all_pages pages2 q p := by
  rw [h]

/-- C9, witness: two invocations on the same canned two-page stub are
deep-equal. -/
theorem C9_idempotent_witness :
    v4request_all_pages [pageOneA, pageTwoB] "%s%s" "c.items" =
      v4request_all_pages [pageOneA, pageTwoB] "%s%s" "c.items" :=
  C9_idempotent [pageOneA, pageTwoB] [pageOneA, pageTwoB] "%s%s" "c.items" rfl

/-- C10: every request body sent — by `v4request` and by each iteration of
`v4request_all_pages` — wraps the supplied query `q` as
`" { " ++ q ++ " rateLimit { limit cost remaining resetAt } } "`, so every
request additionally asks for a top-level `rateLimit` field the caller's
template does not mention; the decoded body the stub pairs with that
request is what the caller sees. -/
theorem C10_wrapped_query (q p : String) (pages : List Response)
    (resp : Response) (q2 : String) :
    (v4request resp q2).1 =
      " \x7b " ++ q2 ++ " rateLimit \x7b limit cost remaining resetAt \x7d \x7d " ∧
    (v4request resp q2).2 = resp.body ∧
    (v4request_all_pages pages q p).sentBodies =
      (v4request_all_pages pages q p).sentQs.map query ∧
    (∀ (i : Nat) (fq : String), (v4request_all_pages pages q p).sentQs[i]? = some fq →
      (v4request_all_pages pages q p).sentBodies[i]? =
        some (" \x7b " ++ fq ++
          " rateLimit \x7b limit cost remaining resetAt \x7d \x7d ")) := by
  obtain ⟨hc, hs, hb, hu⟩ := v4_instrumentation pages q p
  have hmap : (v4request_all_pages pages q p).sentBodies =
      (v4request_all_pages pages q p).sentQs.map query := by
    rw [hs, hb]
    exact fetchPages_bodies q ("data." ++ p) pages (some (.str ""))
  refine ⟨rfl, rfl, hmap, ?_⟩
  intro i fq h
  rw [hmap, List.getElem?_map, h]
  rfl

/-- C10, witness: the wrapping theorem applied to a concrete request and a
concrete one-page run (the first sent body is the wrapped first formatted
query). -/
theorem C10_wrapped_query_witness :
    (v4request pageTwoB "X").1 =
      " \x7b " ++ "X" ++ " rateLimit \x7b limit cost remaining resetAt \x7d \x7d " ∧
    (v4request_all_pages [pageTwoB] "%s%s" "c.items").sentBodies[0]? =
      some (" \x7b " ++ ("first: 50" ++ pageInfoFragment) ++
        " rateLimit \x7b limit cost remaining resetAt \x7d \x7d ") :=
  ⟨(C10_wrapped_query "%s%s" "c.items" [pageTwoB] pageTwoB "X").1,
   (C10_wrapped_query "%s%s" "c.items" [pageTwoB] pageTwoB "X").2.2.2 0
     ("first: 50" ++ pageInfoFragment) rfl⟩

end Cligh
